import Mathlib

/-!
Verification of the persistence layer in `internal/storages/postgres/pg.go`.

The file embeds the SQL-backed operations of the `Postgres` type as pure Lean
functions over an explicit database state.  The two tables `usr` and `task`
are modelled as lists of rows; an absent table is `none`.  Timestamps
(`timestamptz`) are seconds since the Unix epoch as `Nat`; the SQL cast
`t::date` is modelled by `toDate` (division by 86400), matching
date-truncation semantics.  The pgcrypto `crypt` function is an external
engine primitive and is taken as a function parameter where an operation
uses it.  Result rows of a `SELECT` without an `ORDER BY` clause come back
in the engine's storage order, which SQL leaves unspecified: the embedding
therefore treats any row order of the table lists as an admissible state
and returns filtered rows in that stored order.
-/

deriving instance DecidableEq for Except

/-- Row of the `usr` table: `id`, `username` (UNIQUE), `pwd_hash`,
`max_todo` (the mirror of `storages.PgUser`). -/
structure PgUser where
  id : Nat
  username : String
  pwdHash : String
  maxTodo : Nat
deriving DecidableEq, Repr

/-- Row of the `task` table: `id`, `usr_id` (REFERENCES usr(id)), `content`,
`create_at` (the mirror of `storages.PgTask`). -/
structure PgTask where
  id : Nat
  usrId : Nat
  content : String
  createAt : Nat
deriving DecidableEq, Repr

/-- Database state: the two tables, `none` when a table does not exist. -/
structure Db where
  usrTab : Option (List PgUser)
  taskTab : Option (List PgTask)
deriving DecidableEq, Repr

/-- The empty database: neither table exists yet. -/
def emptyDb : Db := ⟨none, none⟩

/-- The SQL cast `ts::date`: truncate a timestamp (seconds since epoch) to
its calendar day number. -/
def toDate (ts : Nat) : Nat := ts / 86400

/-- `2020-06-29` as a day number since the epoch. -/
def june29Day : Nat := 18442

/-- `'2020-06-29'::timestamptz` — midnight of day 18442. -/
def seedTs : Nat := june29Day * 86400

/-- `init` (pg.go lines 54-106): one multi-statement `Exec` run as a single
implicit transaction.  `CREATE EXTENSION / TABLE / INDEX IF NOT EXISTS`
create the schema only when absent (indexes carry no table content and are
not part of the state).  The seed `INSERT INTO usr ... VALUES (1,
'firstUser', crypt('example', gen_salt('bf')), 5) ON CONFLICT DO NOTHING`
skips insertion when the primary key `id = 1` or the UNIQUE `username =
'firstUser'` already occurs; `seedHash` stands for the salted hash computed
by the engine.  The seed `INSERT INTO task ... VALUES (1, 1, 'test 1',
'2020-06-29') ON CONFLICT DO NOTHING` skips on an existing primary key
`id = 1`, and its `usr_id = 1` must satisfy the foreign key to `usr(id)`;
a violation fails the whole statement (rolling the transaction back, so no
partially updated state is returned).

`seedUsrRows` is the `usr`-table seeding step: the bootstrap row is skipped
when the primary key `id = 1` or the UNIQUE `username = 'firstUser'` is
already taken. -/
def seedUsrRows (seedHash : String) (usrs : List PgUser) : List PgUser :=
  if usrs.any (fun u => u.id == 1 || u.username == "firstUser") then usrs
  else usrs ++ [⟨1, "firstUser", seedHash, 5⟩]

/-- `init`, whole statement: create the tables when absent (`getD []`),
seed the `usr` table, then seed the `task` table — skipped on a
primary-key conflict (`id = 1` already present), appended otherwise, and
rejected when `usr_id = 1` satisfies no `usr` row. -/
def initDb (seedHash : String) (db : Db) : Except String Db :=
  if (db.taskTab.getD []).any (fun t => t.id == 1) then
    Except.ok ⟨some (seedUsrRows seedHash (db.usrTab.getD [])), some (db.taskTab.getD [])⟩
  else if (seedUsrRows seedHash (db.usrTab.getD [])).any (fun u => u.id == 1) then
    Except.ok ⟨some (seedUsrRows seedHash (db.usrTab.getD [])),
      some ((db.taskTab.getD []) ++ [⟨1, 1, "test 1", seedTs⟩])⟩
  else
    Except.error "insert on table task violates foreign key constraint"

/-- `ValidateUser` (pg.go lines 108-135): `SELECT id, username, pwd_hash,
max_todo FROM usr WHERE username = $1 AND pwd_hash = crypt($2, pwd_hash)`.
`username` is UNIQUE, so `QueryRow` yields the first (only) matching row,
scanned into a full `PgUser` value; `pgx.ErrNoRows` becomes the single
error `"username or password is not correct"`.  `crypt` is the engine's
hash primitive, passed in as a parameter. -/
def validateUser (crypt : String → String → String)
    (usrs : List PgUser) (username password : String) : Except String PgUser :=
  match usrs.find? (fun u => u.username == username && u.pwdHash == crypt password u.pwdHash) with
  | some u => Except.ok u
  | none => Except.error "username or password is not correct"

/-- `GetTasks` (pg.go lines 137-175): `SELECT id, usr_id, content, create_at
FROM task WHERE usr_id = $1 AND create_at::date = $2::date`.  The query has
no `ORDER BY`, so the rows come back in the table's stored order; when no
row matches the function returns the empty slice it allocated, not an
error. -/
def getTasks (db : Db) (usrId : Nat) (createAt : Nat) : Except String (List PgTask) :=
  match db.taskTab with
  | some tasks =>
      Except.ok (tasks.filter (fun t => t.usrId == usrId && toDate t.createAt == toDate createAt))
  | none => Except.error "relation task does not exist"

/-- Identity assignment for `task.id` (`GENERATED ALWAYS AS IDENTITY`):
the next id the engine hands out, larger than every id in the table. -/
def nextTaskId (tasks : List PgTask) : Nat :=
  (tasks.map (fun t => t.id)).foldr max 0 + 1

/-- The `Exec` of `InsertTask`: `INSERT INTO task (usr_id, content,
create_at) VALUES ($1, $2, now())`.  The engine checks the foreign key
`usr_id REFERENCES usr(id)`, assigns the identity `id` itself, stamps
`create_at` with `now()`, and reports the number of affected rows. -/
def execInsertTask (db : Db) (now : Nat) (usrId : Nat) (content : String) :
    Except String (Db × Nat) :=
  match db.usrTab, db.taskTab with
  | some usrs, some tasks =>
      if usrs.any (fun u => u.id == usrId) then
        Except.ok (⟨some usrs, some (tasks ++ [⟨nextTaskId tasks, usrId, content, now⟩])⟩, 1)
      else
        Except.error "insert on table task violates foreign key constraint"
  | _, _ => Except.error "relation does not exist"

/-- The `RowsAffected` guard of `InsertTask` (pg.go lines 192-194): a
command that affected fewer than one row is an error, never a silent
success. -/
def checkRowsAffected (db : Db) (n : Nat) : Except String Db :=
  if n < 1 then Except.error "failed to insert, no rows affected"
  else Except.ok db

/-- `InsertTask` (pg.go lines 177-197): runs the insert `Exec` with
`task.UsrId` and `task.Content` as its only arguments (the caller's `Id`
and `CreateAt` fields are never read), wraps an execution error, and turns
an affected-row count below one into an error. -/
def insertTask (db : Db) (now : Nat) (task : PgTask) : Except String Db :=
  match execInsertTask db now task.usrId task.content with
  | Except.error e => Except.error ("Exec(): " ++ e)
  | Except.ok (db2, n) => checkRowsAffected db2 n

/-- Number of tasks of user `uid` whose `create_at` falls on day `day`. -/
def dayCount (db : Db) (uid day : Nat) : Nat :=
  ((db.taskTab.getD []).filter (fun t => t.usrId == uid && toDate t.createAt == day)).length

/-- The spec's core contract: no user ever holds more same-day tasks than
their `max_todo`. -/
def quotaInvariant (db : Db) : Prop :=
  ∀ u ∈ db.usrTab.getD [], ∀ d, dayCount db u.id d ≤ u.maxTodo

/-- Ascending `id` order of a row list. -/
def sortedById : List PgTask → Bool
  | [] => true
  | [_] => true
  | a :: b :: rest => decide (a.id < b.id) && sortedById (b :: rest)

/-- A concrete stand-in for pgcrypto's `crypt` used on concrete inputs:
hashes the password, ignoring the salt argument. -/
def cryptModel (password _salt : String) : String := "bf$" ++ password

/-- A directory holding one user, `alice`, whose stored hash matches the
password `pw` under `cryptModel`. -/
def usrsA : List PgUser := [⟨1, "alice", "bf$pw", 5⟩]

/-- The stored row for `alice`. -/
def userA : PgUser := ⟨1, "alice", "bf$pw", 5⟩

example : toDate seedTs = june29Day := by decide
example : validateUser cryptModel usrsA "alice" "pw" = Except.ok userA := by decide
example : validateUser cryptModel usrsA "alice" "nope" =
    Except.error "username or password is not correct" := by decide

/-- C3: a `validate` call whose username is absent and a call whose
username exists but whose password hash mismatches both return the one
error value `"username or password is not correct"`, with equal results —
the caller cannot distinguish the two cases. -/
theorem validateUser_indistinguishable (crypt : String → String → String)
    (usrs : List PgUser) (u1 p1 u2 p2 : String)
    (habsent : ∀ u ∈ usrs, u.username ≠ u1)
    (_hexists : ∃ u ∈ usrs, u.username = u2)
    (hmismatch : ∀ u ∈ usrs, u.username = u2 → crypt p2 u.pwdHash ≠ u.pwdHash) :
    validateUser crypt usrs u1 p1 = Except.error "username or password is not correct" ∧
    validateUser crypt usrs u1 p1 = validateUser crypt usrs u2 p2 := by
  have e1 : usrs.find? (fun u => u.username == u1 && u.pwdHash == crypt p1 u.pwdHash) = none := by
    rw [List.find?_eq_none]
    intro u hu
    simp only [Bool.and_eq_true, beq_iff_eq, not_and]
    intro hun _
    exact habsent u hu hun
  have e2 : usrs.find? (fun u => u.username == u2 && u.pwdHash == crypt p2 u.pwdHash) = none := by
    rw [List.find?_eq_none]
    intro u hu
    simp only [Bool.and_eq_true, beq_iff_eq, not_and]
    intro hun hh
    exact hmismatch u hu hun hh.symm
  refine ⟨?_, ?_⟩
  · simp [validateUser, e1]
  · simp [validateUser, e1, e2]

/-- C3 witness: in the `alice` directory, validating the absent user `bob`
and validating `alice` with a wrong password give the same error. -/
theorem validateUser_indistinguishable_witness :
    validateUser cryptModel usrsA "bob" "x" =
      Except.error "username or password is not correct" ∧
    validateUser cryptModel usrsA "bob" "x" = validateUser cryptModel usrsA "alice" "wrong" :=
  validateUser_indistinguishable cryptModel usrsA "bob" "x" "alice" "wrong"
    (by decide) (by decide) (by decide)

/-- C4 counterexample: a successful `ValidateUser` call whose returned
value carries the stored credential hash — the returned `PgUser` is the
stored row itself, its `pwdHash` field equal to the hash held in the
table, refuting the claim that the hash is never part of the return
value. -/
theorem validateUser_exposes_hash_counterexample :
    validateUser cryptModel usrsA "alice" "pw" = Except.ok userA ∧
    userA ∈ usrsA ∧
    userA.pwdHash = "bf$pw" := by decide

/-- C4 amended: a successful `ValidateUser` returns the full matched `usr`
row — `Id`, `Username`, `MaxTodo` and the stored credential hash in
`PwdHash` — so the stored hash is exposed to the caller. -/
theorem validateUser_ok_is_stored_row (crypt : String → String → String)
    (usrs : List PgUser) (username password : String) (u : PgUser)
    (h : validateUser crypt usrs username password = Except.ok u) :
    u ∈ usrs ∧ u.username = username ∧ u.pwdHash = crypt password u.pwdHash := by
  unfold validateUser at h
  cases hf : usrs.find? (fun v => v.username == username && v.pwdHash == crypt password v.pwdHash) with
  | none => rw [hf] at h; cases h
  | some v =>
    rw [hf] at h
    have hv : v = u := by
      cases h
      rfl
    subst hv
    have hm := List.mem_of_find?_eq_some hf
    have hp := List.find?_some hf
    simp only [Bool.and_eq_true, beq_iff_eq] at hp
    exact ⟨hm, hp.1, hp.2⟩

/-- C4 amended witness: the successful `alice` validation returns the
stored row, hash included. -/
theorem validateUser_ok_is_stored_row_witness :
    userA ∈ usrsA ∧ userA.username = "alice" ∧
    userA.pwdHash = cryptModel "pw" userA.pwdHash :=
  validateUser_ok_is_stored_row cryptModel usrsA "alice" "pw" userA (by decide)

/-- A user owning two same-day tasks stored out of id order. -/
def uOrd : PgUser := ⟨1, "orderUser", "oh", 5⟩

/-- The task with the larger id, stored first. -/
def taskLate : PgTask := ⟨2, 1, "second", seedTs⟩

/-- The task with the smaller id, stored second. -/
def taskEarly : PgTask := ⟨1, 1, "first", seedTs⟩

/-- A table state whose stored row order is [id 2, id 1]: SQL leaves the
result order of an `ORDER BY`-less query to the engine, so this order is
an admissible query result for these two rows. -/
def dbOrd : Db := ⟨some [uOrd], some [taskLate, taskEarly]⟩

/-- C5 counterexample: `GetTasks` has no `ORDER BY`, so it returns the
rows in the engine's stored order — here [id 2, id 1], which is not
ascending by id, refuting the claimed stable id-ascending order. -/
theorem getTasks_not_sorted_counterexample :
    getTasks dbOrd 1 seedTs = Except.ok [taskLate, taskEarly] ∧
    sortedById [taskLate, taskEarly] = false := by decide

/-- C5 amended: `GetTasks` returns exactly the user's tasks of the queried
day, in the table's stored row order (a sublist of the table — the query
has no `ORDER BY`, so no id-ascending order is guaranteed), and it returns
the empty sequence, not an error, when no task matches. -/
theorem getTasks_returns_days_tasks (db : Db) (tasks : List PgTask) (uid qt : Nat)
    (h : db.taskTab = some tasks) :
    ∃ l, getTasks db uid qt = Except.ok l ∧
      (∀ x, x ∈ l ↔ x ∈ tasks ∧ x.usrId = uid ∧ toDate x.createAt = toDate qt) ∧
      l.Sublist tasks ∧
      ((∀ x ∈ tasks, x.usrId = uid → toDate x.createAt ≠ toDate qt) → l = []) := by
  refine ⟨tasks.filter (fun t => t.usrId == uid && toDate t.createAt == toDate qt),
    by simp [getTasks, h], ?_, List.filter_sublist tasks, ?_⟩
  · intro x
    simp [List.mem_filter, and_assoc]
  · intro hnone
    rw [List.filter_eq_nil_iff]
    intro x hx
    simp only [Bool.and_eq_true, beq_iff_eq, not_and]
    intro hu
    exact hnone x hx hu

/-- C5 amended witness: on the out-of-order table the returned list is the
stored order filter of the table. -/
theorem getTasks_returns_days_tasks_witness :
    ∃ l, getTasks dbOrd 1 seedTs = Except.ok l ∧
      (∀ x, x ∈ l ↔ x ∈ [taskLate, taskEarly] ∧ x.usrId = 1 ∧
        toDate x.createAt = toDate seedTs) ∧
      l.Sublist [taskLate, taskEarly] ∧
      ((∀ x ∈ [taskLate, taskEarly], x.usrId = 1 → toDate x.createAt ≠ toDate seedTs) →
        l = []) :=
  getTasks_returns_days_tasks dbOrd [taskLate, taskEarly] 1 seedTs rfl

/-- `2020-06-29T23:59:59` as seconds since the epoch. -/
def tsJune29LastSecond : Nat := june29Day * 86400 + 86399

/-- `2020-06-30T00:00:01` as seconds since the epoch. -/
def tsJune30SecondOne : Nat := june29Day * 86400 + 86401

/-- C6: day attribution is date truncation of the creation timestamp —
`GetTasks` returns exactly the rows whose `create_at::date` equals the
query timestamp's date, and the timestamps `2020-06-29T23:59:59` and
`2020-06-30T00:00:01` truncate to different days. -/
theorem getTasks_date_truncation (db : Db) (tasks : List PgTask) (uid qt : Nat)
    (h : db.taskTab = some tasks) :
    (∀ l, getTasks db uid qt = Except.ok l →
      ∀ x, x ∈ l ↔ x ∈ tasks ∧ x.usrId = uid ∧ toDate x.createAt = toDate qt) ∧
    toDate tsJune29LastSecond ≠ toDate tsJune30SecondOne := by
  refine ⟨?_, by decide⟩
  intro l hl x
  have hres : l = tasks.filter (fun t => t.usrId == uid && toDate t.createAt == toDate qt) := by
    simp [getTasks, h] at hl
    exact hl.symm
  subst hres
  simp [List.mem_filter, and_assoc]

/-- C6 witness: instantiated on the two-task table; membership in the
result is exactly same-user, same-truncated-day membership in the table. -/
theorem getTasks_date_truncation_witness :
    (∀ l, getTasks dbOrd 1 seedTs = Except.ok l →
      ∀ x, x ∈ l ↔ x ∈ [taskLate, taskEarly] ∧ x.usrId = 1 ∧
        toDate x.createAt = toDate seedTs) ∧
    toDate tsJune29LastSecond ≠ toDate tsJune30SecondOne :=
  getTasks_date_truncation dbOrd [taskLate, taskEarly] 1 seedTs rfl

/-- A one-user database with an empty task table. -/
def dbW : Db := ⟨some [⟨1, "w", "wh", 5⟩], some []⟩

/-- C7: `InsertTask` returns nil only when the execution reported at least
one affected row — a success of `insertTask` exhibits an `Exec` outcome
with the returned state and an affected-row count of at least one (the
`RowsAffected() < 1` branch returns an error instead). -/
theorem insertTask_ok_rows_affected (db : Db) (now : Nat) (t : PgTask) (d : Db)
    (h : insertTask db now t = Except.ok d) :
    ∃ n, execInsertTask db now t.usrId t.content = Except.ok (d, n) ∧ 1 ≤ n := by
  unfold insertTask at h
  cases he : execInsertTask db now t.usrId t.content with
  | error e => rw [he] at h; cases h
  | ok p =>
    rw [he] at h
    obtain ⟨db2, n⟩ := p
    dsimp only at h
    unfold checkRowsAffected at h
    by_cases hn : n < 1
    · rw [if_pos hn] at h
      cases h
    · rw [if_neg hn] at h
      have hd : db2 = d := by
        cases h
        rfl
      subst hd
      exact ⟨n, rfl, Nat.le_of_not_lt hn⟩

/-- C7 witness: a concrete successful insert, with its `Exec` outcome
affecting one row. -/
theorem insertTask_ok_rows_affected_witness :
    ∃ n, execInsertTask dbW 7 1 "x" =
      Except.ok (⟨some [⟨1, "w", "wh", 5⟩], some [⟨1, 1, "x", 7⟩]⟩, n) ∧ 1 ≤ n :=
  insertTask_ok_rows_affected dbW 7 ⟨0, 1, "x", 0⟩
    ⟨some [⟨1, "w", "wh", 5⟩], some [⟨1, 1, "x", 7⟩]⟩ (by decide)

/-- C9: `InsertTask` reads only `UsrId` and `Content` from its argument —
its result is unchanged under any caller-supplied `Id` and `CreateAt` —
and a successful insert appends exactly one row whose id is the
engine-assigned identity and whose `create_at` is the engine's `now()`. -/
theorem insertTask_ignores_caller_id_createAt (db : Db) (now : Nat) (t1 t2 : PgTask)
    (hu : t1.usrId = t2.usrId) (hc : t1.content = t2.content) :
    insertTask db now t1 = insertTask db now t2 ∧
    (∀ d, insertTask db now t1 = Except.ok d →
      ∃ tasks, db.taskTab = some tasks ∧
        d.taskTab = some (tasks ++ [⟨nextTaskId tasks, t1.usrId, t1.content, now⟩])) := by
  constructor
  · unfold insertTask
    rw [hu, hc]
  · intro d h
    unfold insertTask execInsertTask at h
    cases hu2 : db.usrTab with
    | none => rw [hu2] at h; cases h
    | some usrs =>
      cases ht : db.taskTab with
      | none => rw [hu2, ht] at h; cases h
      | some tasks =>
        rw [hu2, ht] at h
        dsimp only at h
        by_cases hfk : usrs.any (fun u => u.id == t1.usrId) = true
        · rw [if_pos hfk] at h
          dsimp only at h
          unfold checkRowsAffected at h
          rw [if_neg (by decide)] at h
          have hd : (⟨some usrs, some (tasks ++ [⟨nextTaskId tasks, t1.usrId, t1.content, now⟩])⟩ : Db) = d := by
            cases h
            rfl
          refine ⟨tasks, rfl, ?_⟩
          rw [← hd]
        · rw [if_neg hfk] at h
          cases h

/-- C9 witness: two requests differing only in their caller-supplied `Id`
and `CreateAt` fields produce the same result, and the inserted row
carries the engine id 1 and timestamp 7. -/
theorem insertTask_ignores_caller_id_createAt_witness :
    insertTask dbW 7 ⟨99, 1, "x", 123⟩ = insertTask dbW 7 ⟨0, 1, "x", 0⟩ ∧
    (∀ d, insertTask dbW 7 ⟨99, 1, "x", 123⟩ = Except.ok d →
      ∃ tasks, dbW.taskTab = some tasks ∧
        d.taskTab = some (tasks ++ [⟨nextTaskId tasks, 1, "x", 7⟩])) :=
  insertTask_ignores_caller_id_createAt dbW 7 ⟨99, 1, "x", 123⟩ ⟨0, 1, "x", 0⟩ rfl rfl

/-- After the `usr` seeding step some row always conflicts with the seed:
either a conflicting row was already present, or the seed row itself (id 1,
username `firstUser`) is now in the table. -/
theorem seedUsrRows_conflict (seedHash : String) (usrs : List PgUser) :
    (seedUsrRows seedHash usrs).any (fun u => u.id == 1 || u.username == "firstUser") = true := by
  unfold seedUsrRows
  by_cases hc : usrs.any (fun u => u.id == 1 || u.username == "firstUser") = true
  · rw [if_pos hc]
    exact hc
  · rw [if_neg hc]
    simp [List.any_append]

/-- Seeding the `usr` table a second time changes nothing, whatever hash
the second run's `gen_salt` produces. -/
theorem seedUsrRows_stable (hashA hashB : String) (usrs : List PgUser) :
    seedUsrRows hashB (seedUsrRows hashA usrs) = seedUsrRows hashA usrs := by
  rw [seedUsrRows]
  rw [if_pos (seedUsrRows_conflict hashA usrs)]

/-- C8: schema initialization is idempotent — rerunning `init` on any
database on which a run succeeded (an initialized database) succeeds and
returns that database unchanged: no duplicate seed rows, whatever salted
hash the second run computes.  In particular two runs from the empty
database end in the state one run produces. -/
theorem initDb_idempotent (s : Db) (hashA hashB : String) (s1 : Db)
    (h : initDb hashA s = Except.ok s1) :
    initDb hashB s1 = Except.ok s1 := by
  unfold initDb at h
  by_cases hT : (s.taskTab.getD []).any (fun t => t.id == 1) = true
  · rw [if_pos hT] at h
    have hs1 : s1 = ⟨some (seedUsrRows hashA (s.usrTab.getD [])), some (s.taskTab.getD [])⟩ := by
      cases h
      rfl
    subst hs1
    simp only [initDb, Option.getD_some, hT, if_true, seedUsrRows_stable]
  · rw [if_neg hT] at h
    by_cases hU : (seedUsrRows hashA (s.usrTab.getD [])).any (fun u => u.id == 1) = true
    · rw [if_pos hU] at h
      have hs1 : s1 = ⟨some (seedUsrRows hashA (s.usrTab.getD [])),
          some ((s.taskTab.getD []) ++ [⟨1, 1, "test 1", seedTs⟩])⟩ := by
        cases h
        rfl
      subst hs1
      simp only [initDb, Option.getD_some, List.any_append, seedUsrRows_stable]
      simp
    · rw [if_neg hU] at h
      cases h

/-- C8 witness: rerunning `init` (with a fresh salt `h2`) on the database
produced by a first run from empty leaves it unchanged. -/
theorem initDb_idempotent_witness :
    initDb "h2" ⟨some [⟨1, "firstUser", "h1", 5⟩], some [⟨1, 1, "test 1", seedTs⟩]⟩ =
      Except.ok ⟨some [⟨1, "firstUser", "h1", 5⟩], some [⟨1, 1, "test 1", seedTs⟩]⟩ :=
  initDb_idempotent emptyDb "h1" "h2"
    ⟨some [⟨1, "firstUser", "h1", 5⟩], some [⟨1, 1, "test 1", seedTs⟩]⟩ (by decide)

/-- C10: a successful initialization of the empty database seeds the
bootstrap user (id 1, `firstUser`, `max_todo` 5) and one pre-existing task
(id 1, owner 1, content `test 1`, created `2020-06-29`): afterwards the
task table is non-empty and user 1 already counts one task on day
2020-06-29. -/
theorem initDb_seeds_bootstrap_rows (seedHash : String) :
    initDb seedHash emptyDb =
      Except.ok ⟨some [⟨1, "firstUser", seedHash, 5⟩], some [⟨1, 1, "test 1", seedTs⟩]⟩ ∧
    toDate seedTs = june29Day ∧
    1 ≤ dayCount ⟨some [⟨1, "firstUser", seedHash, 5⟩], some [⟨1, 1, "test 1", seedTs⟩]⟩
      1 june29Day ∧
    ([⟨1, 1, "test 1", seedTs⟩] : List PgTask) ≠ [] := by
  refine ⟨rfl, by decide, ?_, by decide⟩
  show 1 ≤ (([⟨1, 1, "test 1", seedTs⟩] : List PgTask).filter
    (fun t => t.usrId == 1 && toDate t.createAt == june29Day)).length
  decide

/-- A user whose daily limit is zero. -/
def userQ : PgUser := ⟨1, "quotaUser", "qh", 0⟩

/-- Database holding `userQ` and no tasks: it satisfies the quota
invariant. -/
def dbQ0 : Db := ⟨some [userQ], some []⟩

/-- A creation request for `userQ`. -/
def reqQ : PgTask := ⟨0, 1, "one more", 0⟩

/-- The database after the insert: one task on 2020-06-29 against a limit
of zero. -/
def dbQ1 : Db := ⟨some [userQ], some [⟨1, 1, "one more", seedTs⟩]⟩

/-- C1 (violated by the code): from a state satisfying the daily-quota
invariant, the store's `InsertTask` — which performs no quota check —
succeeds and reaches a state violating it: user 1 has limit 0 yet owns one
task created on 2020-06-29. -/
theorem insertTask_breaks_quota_invariant :
    quotaInvariant dbQ0 ∧
    insertTask dbQ0 seedTs reqQ = Except.ok dbQ1 ∧
    ¬ quotaInvariant dbQ1 := by
  refine ⟨?_, by decide, ?_⟩
  · intro u hu d
    simp [dayCount, dbQ0]
  · intro hq
    exact absurd (hq userQ (by decide) june29Day) (by decide)

/-- A user whose daily limit is one. -/
def userF : PgUser := ⟨1, "fullUser", "fh", 1⟩

/-- The task already created by `userF` on 2020-06-29. -/
def taskF : PgTask := ⟨1, 1, "existing", seedTs⟩

/-- Database where `userF` has reached today's limit. -/
def dbF0 : Db := ⟨some [userF], some [taskF]⟩

/-- One more creation request for `userF` on the same day. -/
def reqF : PgTask := ⟨0, 1, "extra", 0⟩

/-- The database after the insert: two same-day tasks against a limit of
one. -/
def dbF1 : Db := ⟨some [userF], some [taskF, ⟨2, 1, "extra", seedTs + 60⟩]⟩

/-- C2 (violated by the code): with the authoritative same-day count
already equal to the user's `max_todo`, `InsertTask` neither fails with a
quota rejection nor leaves the task table unchanged — it succeeds and
appends the row. -/
theorem insertTask_no_quota_rejection :
    dayCount dbF0 1 june29Day = userF.maxTodo ∧
    insertTask dbF0 (seedTs + 60) reqF = Except.ok dbF1 ∧
    (dbF1.taskTab.getD []).length = (dbF0.taskTab.getD []).length + 1 := by decide
